import Mathlib

/-!
Shallow embedding of `src/common/main.c` (TinyHRM), a small virtual machine
for a Human-Resource-Machine-style assembly dialect, together with theorems
checking the natural-language specification against the code.

Machine integers of the C source are modelled over `Nat`/`Int` with explicit
reductions where the C semantics wraps or converts: the AVR target has
16-bit `int`, so `int16_t`/`uint16_t` comparisons and arithmetic are taken
modulo 2^16.  Global state of the source (`hands`, the FIFOs, the loop-local
counters) is gathered into an explicit `HRMState` record, and the body of the
`while` loop in `execute` becomes a step function on that record; the loop
itself is run on explicit fuel because, as proved below, the source loop does
not terminate on all inputs.
-/

namespace TinyHRM

/-- Value type tags, from `HRMValueType_e` in the source (the alias
`NO_PARAM = EMPTY` is not separately represented). -/
inductive HRMValueType where
  | EMPTY
  | CHAR
  | NUM
  | MEM_ADDR
  | PROG_ADDR
deriving DecidableEq

open HRMValueType

/-- A tagged value, from `HRMVal_s` in the source.  The C payload is a union
of `int16_t n` and `uint8_t c`; the code under verification only ever reads
the `n` view, so the payload is a single `Int` (the `int16_t` view). -/
structure HRMVal where
  type : HRMValueType
  n : Int
deriving DecidableEq

/-- The `{ EMPTY, {} }` value (zero-initialised payload). -/
def emptyVal : HRMVal := ⟨EMPTY, 0⟩

/-- Opcodes, from `HRMInstructionType_e` in the source. -/
inductive HRMInstructionType where
  | INBOX
  | OUTBOX
  | COPYFROM
  | COPYFROM_IND
  | COPYTO
  | COPYTO_IND
  | ADD
  | ADD_IND
  | SUB
  | SUB_IND
  | BUMP_PLUS
  | BUMP_PLUS_IND
  | BUMP_MINUS
  | BUMP_MINUS_IND
  | JUMP
  | JUMP_ZERO
  | JUMP_NEGATIVE
deriving DecidableEq

open HRMInstructionType

/-- An instruction: opcode plus parameter value, from `HRMInst_s`. -/
structure HRMInstruction where
  inst : HRMInstructionType
  param : HRMVal
deriving DecidableEq

/-- Error codes, from `HRMErr_e` in the source, in declaration order
(`ERR_NONE = 0`, `ERR_BAD_PARAM_TYPE = 1`, ...). -/
inductive HRMErr where
  | ERR_NONE
  | ERR_BAD_PARAM_TYPE
  | ERR_EMPTY_HANDS
  | ERR_INVALID_TYPE_FOR_DIRECT_ADDR
  | ERR_DIRECT_ADDR_OUT_OF_RANGE
  | ERR_INVALID_TYPE_FOR_INDIRECT_ADDR
  | ERR_INDIRECT_ADDR_OUT_OF_RANGE
  | ERR_COPYFROM_READING_EMPTY_ADDR
  | ERR_COPYFROM_IND_READING_EMPTY_ADDR
  | ERR_BAD_ADDEND_TYPE_IN_HANDS
  | ERR_BAD_SUBTRAHEND_TYPE_IN_HANDS
  | ERR_BAD_ADDEND_TYPE_IN_MEMORY
  | ERR_BAD_SUBTRAHEND_TYPE_IN_MEMORY
  | ERR_BAD_TYPE_FOR_BUMP_IN_MEMORY
  | ERR_OVERFLOW
  | ERR_UNDERFLOW
deriving DecidableEq

open HRMErr

/-- `MAX_INSTRUCTIONS_ALLOWED` from the source. -/
def MAX_INSTRUCTIONS_ALLOWED : Nat := 1000

/-- Conversion of a C `int` (16-bit on the AVR target) to `uint16_t`, as
performed by the usual arithmetic conversions in comparisons such as
`direct_addr.val.n >= (uint16_t)mem_len` and by assignment to a `uint16_t`
variable such as `pgm_pc`. -/
def toU16 (x : Int) : Nat := (x % 65536).toNat

/-- Reduction of an `Int` to `int16_t` two's-complement range, as performed
by storing an arithmetic result back into an `int16_t` field. -/
def wrap16 (x : Int) : Int := (x + 32768) % 65536 - 32768

/-- Read of `mem[i]` where `i` is the `int16_t` payload of a validated
address (the validators guarantee `0 <= i < mem_len` before any read). -/
def memGet (mem : List HRMVal) (i : Int) : HRMVal := mem.getD i.toNat emptyVal

/-- Write of `mem[i] = v` under the same pre-validated-index convention. -/
def memSet (mem : List HRMVal) (i : Int) (v : HRMVal) : List HRMVal :=
  mem.set i.toNat v

/-- `verify_hands_not_empty` from the source (the global `hands` is passed
explicitly). -/
def verify_hands_not_empty (hands : HRMVal) : HRMErr :=
  if EMPTY = hands.type then ERR_EMPTY_HANDS else ERR_NONE

/-- `verify_hands_hold_number` from the source. -/
def verify_hands_hold_number (hands : HRMVal) : HRMErr :=
  let ret_val := verify_hands_not_empty hands
  if ERR_NONE = ret_val ∧ NUM ≠ hands.type then ERR_BAD_ADDEND_TYPE_IN_HANDS
  else ret_val

/-- `verify_direct_addr` from the source.  The `mem` pointer parameter is
unused by the C function and is dropped; `mem_len` is the `uint8_t` length
argument.  The comparison `direct_addr.val.n >= (uint16_t)mem_len` converts
the `int16_t` payload to `uint16_t` (AVR: `int` is 16-bit), so negative
payloads compare as values ≥ 32768. -/
def verify_direct_addr (direct_addr : HRMVal) (mem_len : Nat) : HRMErr :=
  if NUM ≠ direct_addr.type then ERR_INVALID_TYPE_FOR_DIRECT_ADDR
  else if toU16 direct_addr.n ≥ mem_len then ERR_DIRECT_ADDR_OUT_OF_RANGE
  else ERR_NONE

/-- `verify_indirect_addr` from the source: the same two checks as
`verify_direct_addr` with the indirect error codes, then the referenced
cell `mem[indirect_addr.val.n]` is itself validated as a direct address. -/
def verify_indirect_addr (indirect_addr : HRMVal) (mem : List HRMVal)
    (mem_len : Nat) : HRMErr :=
  if NUM ≠ indirect_addr.type then ERR_INVALID_TYPE_FOR_INDIRECT_ADDR
  else if toU16 indirect_addr.n ≥ mem_len then ERR_INDIRECT_ADDR_OUT_OF_RANGE
  else verify_direct_addr (memGet mem indirect_addr.n) mem_len

/-- The mutable state of one run of `execute`: the loop-local variables of
`execute` (`pgm_pc`, `pgm_num_instructions_executed`, `inbox_empty`,
`in_fifo_val_idx`, `err`) together with the globals it mutates (`hands`,
the memory bank, the output FIFO).  The output FIFO is modelled as the list
of values written so far (`out_fifo_num_vals` is its length). -/
structure HRMState where
  pgm_pc : Nat
  pgm_num_instructions_executed : Nat
  inbox_empty : Bool
  in_fifo_val_idx : Nat
  out_fifo : List HRMVal
  hands : HRMVal
  mem : List HRMVal
  err : HRMErr
deriving DecidableEq

/-- Default instruction for the (never exercised) out-of-bounds fetch of
`List.getD`; the loop guard keeps `pgm_pc` inside the program. -/
def dfltInstr : HRMInstruction := ⟨INBOX, emptyVal⟩

/-- One execution of the `switch` body of `execute` for a fetched
instruction `instr`.  `in_fifo` is the input FIFO (the global `in_fifo`
array of the source, generalised to an arbitrary list with
`NUM_INBOX_VALUES = in_fifo.length`); the bank length `mem_len` of the
source is `s.mem.length`.  All `uint16_t` increments and assignments are
taken mod 2^16. -/
def stepInstr : HRMInstruction → List HRMVal → HRMState → HRMState
  | ⟨INBOX, _⟩, in_fifo, s =>
      if s.in_fifo_val_idx ≥ in_fifo.length then
        { s with inbox_empty := true,
                 pgm_num_instructions_executed :=
                   (s.pgm_num_instructions_executed + 1) % 65536 }
      else
        { s with hands := in_fifo.getD s.in_fifo_val_idx emptyVal,
                 in_fifo_val_idx := (s.in_fifo_val_idx + 1) % 256,
                 pgm_pc := (s.pgm_pc + 1) % 65536,
                 pgm_num_instructions_executed :=
                   (s.pgm_num_instructions_executed + 1) % 65536 }
  | ⟨OUTBOX, _⟩, _, s =>
      if EMPTY = s.hands.type then
        { s with err := ERR_EMPTY_HANDS,
                 pgm_num_instructions_executed :=
                   (s.pgm_num_instructions_executed + 1) % 65536 }
      else
        { s with out_fifo := s.out_fifo ++ [s.hands],
                 pgm_pc := (s.pgm_pc + 1) % 65536,
                 pgm_num_instructions_executed :=
                   (s.pgm_num_instructions_executed + 1) % 65536 }
  | ⟨COPYFROM, param⟩, _, s =>
      let e := verify_direct_addr param s.mem.length
      if ERR_NONE = e then
        let value := memGet s.mem param.n
        if EMPTY = value.type then
          { s with err := ERR_COPYFROM_READING_EMPTY_ADDR }
        else
          { s with err := e, hands := value }
      else
        { s with err := e }
  | ⟨COPYFROM_IND, param⟩, _, s =>
      let e := verify_indirect_addr param s.mem s.mem.length
      if ERR_NONE = e then
        let value := memGet s.mem (memGet s.mem param.n).n
        if EMPTY = value.type then
          { s with err := ERR_COPYFROM_IND_READING_EMPTY_ADDR }
        else
          { s with err := e, hands := value }
      else
        { s with err := e }
  | ⟨COPYTO, param⟩, _, s =>
      let e := verify_direct_addr param s.mem.length
      if ERR_NONE = e then
        { s with err := e,
                 mem := memSet s.mem param.n s.hands,
                 hands := { s.hands with type := EMPTY } }
      else
        { s with err := e }
  | ⟨COPYTO_IND, param⟩, _, s =>
      let e := verify_indirect_addr param s.mem s.mem.length
      if ERR_NONE = e then
        { s with err := e,
                 mem := memSet s.mem (memGet s.mem param.n).n s.hands,
                 hands := { s.hands with type := EMPTY } }
      else
        { s with err := e }
  | ⟨ADD, param⟩, _, s =>
      if ERR_NONE ≠ verify_hands_hold_number s.hands then
        { s with err := ERR_BAD_ADDEND_TYPE_IN_HANDS }
      else
        let e := verify_direct_addr param s.mem.length
        if ERR_NONE = e then
          let value := memGet s.mem param.n
          if value.type ≠ NUM then
            { s with err := ERR_BAD_ADDEND_TYPE_IN_MEMORY }
          else
            let h2 : HRMVal := { s.hands with n := wrap16 (s.hands.n + value.n) }
            if h2.n < 999 then { s with hands := h2, err := ERR_UNDERFLOW }
            else if h2.n > 999 then { s with hands := h2, err := ERR_OVERFLOW }
            else { s with hands := h2, err := e }
        else
          { s with err := e }
  | ⟨ADD_IND, param⟩, _, s =>
      if ERR_NONE ≠ verify_hands_hold_number s.hands then
        { s with err := ERR_BAD_ADDEND_TYPE_IN_HANDS }
      else
        let e := verify_indirect_addr param s.mem s.mem.length
        if ERR_NONE = e then
          let value := memGet s.mem (memGet s.mem param.n).n
          if value.type ≠ NUM then
            { s with err := ERR_BAD_ADDEND_TYPE_IN_MEMORY }
          else
            let h2 : HRMVal := { s.hands with n := wrap16 (s.hands.n + value.n) }
            if h2.n < 999 then { s with hands := h2, err := ERR_UNDERFLOW }
            else if h2.n > 999 then { s with hands := h2, err := ERR_OVERFLOW }
            else { s with hands := h2, err := e }
        else
          { s with err := e }
  | ⟨SUB, param⟩, _, s =>
      if ERR_NONE ≠ verify_hands_hold_number s.hands then
        { s with err := ERR_BAD_SUBTRAHEND_TYPE_IN_HANDS }
      else
        let e := verify_direct_addr param s.mem.length
        if ERR_NONE = e then
          let value := memGet s.mem param.n
          if value.type ≠ NUM then
            { s with err := ERR_BAD_SUBTRAHEND_TYPE_IN_MEMORY }
          else
            let h2 : HRMVal := { s.hands with n := wrap16 (s.hands.n - value.n) }
            if h2.n < 999 then { s with hands := h2, err := ERR_UNDERFLOW }
            else if h2.n > 999 then { s with hands := h2, err := ERR_OVERFLOW }
            else { s with hands := h2, err := e }
        else
          { s with err := e }
  | ⟨SUB_IND, param⟩, _, s =>
      if ERR_NONE ≠ verify_hands_hold_number s.hands then
        { s with err := ERR_BAD_SUBTRAHEND_TYPE_IN_HANDS }
      else
        let e := verify_indirect_addr param s.mem s.mem.length
        if ERR_NONE = e then
          let value := memGet s.mem (memGet s.mem param.n).n
          if value.type ≠ NUM then
            { s with err := ERR_BAD_SUBTRAHEND_TYPE_IN_MEMORY }
          else
            let h2 : HRMVal := { s.hands with n := wrap16 (s.hands.n - value.n) }
            if h2.n < 999 then { s with hands := h2, err := ERR_UNDERFLOW }
            else if h2.n > 999 then { s with hands := h2, err := ERR_OVERFLOW }
            else { s with hands := h2, err := e }
        else
          { s with err := e }
  | ⟨BUMP_PLUS, param⟩, _, s =>
      let e := verify_direct_addr param s.mem.length
      if ERR_NONE = e then
        let value := memGet s.mem param.n
        if value.type ≠ NUM then
          { s with err := ERR_BAD_TYPE_FOR_BUMP_IN_MEMORY }
        else
          let v2 : HRMVal := { value with n := wrap16 (value.n + 1) }
          if v2.n > 999 then { s with err := ERR_OVERFLOW }
          else
            { s with err := e,
                     mem := memSet s.mem param.n v2,
                     hands := v2 }
      else
        { s with err := e }
  | ⟨BUMP_PLUS_IND, param⟩, _, s =>
      let e := verify_indirect_addr param s.mem s.mem.length
      if ERR_NONE = e then
        let value := memGet s.mem (memGet s.mem param.n).n
        if value.type ≠ NUM then
          { s with err := ERR_BAD_TYPE_FOR_BUMP_IN_MEMORY }
        else
          let v2 : HRMVal := { value with n := wrap16 (value.n + 1) }
          if v2.n > 999 then { s with err := ERR_OVERFLOW }
          else
            { s with err := e,
                     mem := memSet s.mem (memGet s.mem param.n).n v2,
                     hands := v2 }
      else
        { s with err := e }
  | ⟨BUMP_MINUS, param⟩, _, s =>
      let e := verify_direct_addr param s.mem.length
      if ERR_NONE = e then
        let value := memGet s.mem param.n
        if value.type ≠ NUM then
          { s with err := ERR_BAD_TYPE_FOR_BUMP_IN_MEMORY }
        else
          let v2 : HRMVal := { value with n := wrap16 (value.n - 1) }
          if v2.n < 999 then { s with err := ERR_UNDERFLOW }
          else
            { s with err := e,
                     mem := memSet s.mem param.n v2,
                     hands := v2 }
      else
        { s with err := e }
  | ⟨BUMP_MINUS_IND, param⟩, _, s =>
      let e := verify_indirect_addr param s.mem s.mem.length
      if ERR_NONE = e then
        let value := memGet s.mem (memGet s.mem param.n).n
        if value.type ≠ NUM then
          { s with err := ERR_BAD_TYPE_FOR_BUMP_IN_MEMORY }
        else
          let v2 : HRMVal := { value with n := wrap16 (value.n - 1) }
          if v2.n < 999 then { s with err := ERR_UNDERFLOW }
          else
            { s with err := e,
                     mem := memSet s.mem (memGet s.mem param.n).n v2,
                     hands := v2 }
      else
        { s with err := e }
  | ⟨JUMP, param⟩, _, s =>
      { s with pgm_pc := toU16 (param.n - 1),
               pgm_num_instructions_executed :=
                 (s.pgm_num_instructions_executed + 1) % 65536 }
  | ⟨JUMP_ZERO, param⟩, _, s =>
      if NUM ≠ s.hands.type then
        { s with err := ERR_BAD_PARAM_TYPE,
                 pgm_num_instructions_executed :=
                   (s.pgm_num_instructions_executed + 1) % 65536 }
      else if 0 = s.hands.n then
        { s with pgm_pc := toU16 (param.n - 1),
                 pgm_num_instructions_executed :=
                   (s.pgm_num_instructions_executed + 1) % 65536 }
      else
        { s with pgm_pc := (s.pgm_pc + 1) % 65536,
                 pgm_num_instructions_executed :=
                   (s.pgm_num_instructions_executed + 1) % 65536 }
  | ⟨JUMP_NEGATIVE, param⟩, _, s =>
      if NUM ≠ s.hands.type then
        { s with err := ERR_BAD_PARAM_TYPE,
                 pgm_num_instructions_executed :=
                   (s.pgm_num_instructions_executed + 1) % 65536 }
      else if s.hands.n < 0 then
        { s with pgm_pc := toU16 (param.n - 1),
                 pgm_num_instructions_executed :=
                   (s.pgm_num_instructions_executed + 1) % 65536 }
      else
        { s with pgm_pc := (s.pgm_pc + 1) % 65536,
                 pgm_num_instructions_executed :=
                   (s.pgm_num_instructions_executed + 1) % 65536 }


/-- One iteration body of the `while` loop: fetch `pgm[pgm_pc]` and execute
it. -/
def step (pgm : List HRMInstruction) (in_fifo : List HRMVal)
    (s : HRMState) : HRMState :=
  stepInstr (pgm.getD s.pgm_pc dfltInstr) in_fifo s

/-- The guard of the `while` loop in `execute`.  `pgm_len - 1` is computed
in 16-bit `int` and compared against the `uint16_t` counter `pgm_pc`, hence
the `toU16` (for `pgm_len = 0` the bound is 65535). -/
def loopCond (pgm_len : Nat) (s : HRMState) : Bool :=
  decide (s.inbox_empty = false ∧ s.err = ERR_NONE ∧
          s.pgm_pc ≤ toU16 ((pgm_len : Int) - 1) ∧
          s.pgm_num_instructions_executed ≤ MAX_INSTRUCTIONS_ALLOWED)

/-- The initial state of `execute`: all loop locals zeroed, `hands` the
global `{ EMPTY, {} }`, memory bank as supplied. -/
def initState (mem : List HRMVal) : HRMState :=
  { pgm_pc := 0
    pgm_num_instructions_executed := 0
    inbox_empty := false
    in_fifo_val_idx := 0
    out_fifo := []
    hands := emptyVal
    mem := mem
    err := ERR_NONE }

/-- The `while` loop of `execute`, on explicit fuel (the number of loop
iterations still permitted).  The C loop has no such bound; fuel is needed
to make the function total, and theorems below show the C loop indeed fails
to terminate on some inputs. -/
def run (pgm : List HRMInstruction) (in_fifo : List HRMVal) :
    Nat → HRMState → HRMState
  | 0, s => s
  | fuel + 1, s =>
      if loopCond pgm.length s then run pgm in_fifo fuel (step pgm in_fifo s)
      else s

/-- The result `execute` returns (its `err` variable) after the loop, given
enough fuel for the loop to reach a state falsifying its guard. -/
def executeResult (pgm : List HRMInstruction) (in_fifo : List HRMVal)
    (mem : List HRMVal) (fuel : Nat) : HRMErr :=
  (run pgm in_fifo fuel (initState mem)).err

/-- True exactly for the four ADD/SUB opcodes (direct and indirect). -/
def isAddSubOpcode : HRMInstructionType → Bool
  | ADD => true
  | ADD_IND => true
  | SUB => true
  | SUB_IND => true
  | _ => false

/-- Claim C1.  The arithmetic range check of the source tests the result
against 999 in both directions (`< 999` is classified as underflow), so the
in-range result 2 + 3 = 5 of an ADD halts the run with `ERR_UNDERFLOW`
instead of succeeding, and a BUMP_DOWN of the Number 5 (in-range result 4)
likewise halts with `ERR_UNDERFLOW` and leaves the cell unchanged, contrary
to the claim and to the source's own header commentary, which states the
legal range is -999..999 and that only results below -999 underflow. -/
theorem range_check_misclassifies_in_range_results :
    (step [⟨ADD, ⟨NUM, 0⟩⟩] []
        { initState [⟨NUM, 3⟩] with hands := ⟨NUM, 2⟩ }).err = ERR_UNDERFLOW ∧
    (step [⟨ADD, ⟨NUM, 0⟩⟩] []
        { initState [⟨NUM, 3⟩] with hands := ⟨NUM, 2⟩ }).hands = ⟨NUM, 5⟩ ∧
    (step [⟨BUMP_MINUS, ⟨NUM, 0⟩⟩] [] (initState [⟨NUM, 5⟩])).err =
      ERR_UNDERFLOW ∧
    (step [⟨BUMP_MINUS, ⟨NUM, 0⟩⟩] [] (initState [⟨NUM, 5⟩])).mem =
      [⟨NUM, 5⟩] := by
  decide

/-- Claim C2.  A successful COPYFROM leaves the program counter unchanged:
the COPYFROM/COPYTO/ADD/SUB/BUMP cases of the source's `switch` never
increment `pgm_pc`, so the step below succeeds (hands receives the cell
value, no error) yet the program counter stays at 0 instead of advancing
to 1. -/
theorem copyfrom_success_does_not_advance_pc :
    (step [⟨COPYFROM, ⟨NUM, 0⟩⟩] [] (initState [⟨NUM, 5⟩])).err = ERR_NONE ∧
    (step [⟨COPYFROM, ⟨NUM, 0⟩⟩] [] (initState [⟨NUM, 5⟩])).hands =
      ⟨NUM, 5⟩ ∧
    (step [⟨COPYFROM, ⟨NUM, 0⟩⟩] [] (initState [⟨NUM, 5⟩])).pgm_pc = 0 := by
  decide

set_option maxRecDepth 100000

/-- Claim C3.  Two refutations.  First, the budget guard is
`pgm_num_instructions_executed <= 1000`, so a self-jump program executes
1001 instructions before the loop exits (the instruction counter after the
run is 1001, not 1000).  Second, the COPYFROM/COPYTO/ADD/SUB/BUMP cases
never increment the instruction counter, so a one-instruction COPYFROM
program reaches, after one step, a state that is a fixed point of the step
function on which the loop guard still holds with the counter still 0: the
source loop re-executes that instruction forever and `execute` does not
terminate on this input. -/
theorem budget_off_by_one_and_nontermination :
    (run [⟨JUMP, ⟨PROG_ADDR, 1⟩⟩] [] 1002
        (initState [])).pgm_num_instructions_executed = 1001 ∧
    (step [⟨COPYFROM, ⟨NUM, 0⟩⟩] []
        (step [⟨COPYFROM, ⟨NUM, 0⟩⟩] [] (initState [⟨NUM, 5⟩])) =
      step [⟨COPYFROM, ⟨NUM, 0⟩⟩] [] (initState [⟨NUM, 5⟩])) ∧
    loopCond 1 (step [⟨COPYFROM, ⟨NUM, 0⟩⟩] [] (initState [⟨NUM, 5⟩])) =
      true ∧
    (step [⟨COPYFROM, ⟨NUM, 0⟩⟩] []
        (initState [⟨NUM, 5⟩])).pgm_num_instructions_executed = 0 := by
  decide

/-- Claim C4.  The COPYTO case of the source has no empty-hands check: a
COPYTO executed with Empty hands does not halt with `ERR_EMPTY_HANDS` but
instead succeeds, overwriting the target cell with the Empty hands value
(the bank is mutated, the Number 5 in cell 0 is destroyed). -/
theorem copyto_empty_hands_not_rejected :
    (step [⟨COPYTO, ⟨NUM, 0⟩⟩] [] (initState [⟨NUM, 5⟩])).err = ERR_NONE ∧
    (step [⟨COPYTO, ⟨NUM, 0⟩⟩] [] (initState [⟨NUM, 5⟩])).mem =
      [⟨EMPTY, 0⟩] ∧
    (initState [⟨NUM, 5⟩]).hands.type = EMPTY := by
  decide

/-- Claim C6.  Characterisation of `verify_direct_addr` over a bank of
length `L` (`mem_len` is a `uint8_t`, hence `L ≤ 255`; the parameter's
payload is an `int16_t`): validation succeeds iff the parameter is a
`NUM`-typed value whose payload `v` satisfies `0 ≤ v < L`; a non-`NUM`
parameter fails with `ERR_INVALID_TYPE_FOR_DIRECT_ADDR`; a `NUM` parameter
with `v` outside `[0, L)` — negative `v` included, via the conversion of
the payload to `uint16_t` in the comparison — fails with
`ERR_DIRECT_ADDR_OUT_OF_RANGE`. -/
theorem verify_direct_addr_characterisation (L : Nat) (p : HRMVal)
    (hL : L ≤ 255) (hlo : -32768 ≤ p.n) (hhi : p.n < 32768) :
    (verify_direct_addr p L = ERR_NONE ↔
      p.type = NUM ∧ 0 ≤ p.n ∧ p.n < (L : Int)) ∧
    (p.type ≠ NUM →
      verify_direct_addr p L = ERR_INVALID_TYPE_FOR_DIRECT_ADDR) ∧
    (p.type = NUM → ¬(0 ≤ p.n ∧ p.n < (L : Int)) →
      verify_direct_addr p L = ERR_DIRECT_ADDR_OUT_OF_RANGE) := by
  obtain ⟨t, v⟩ := p
  dsimp only at hlo hhi
  have key : L ≤ toU16 v ↔ ¬(0 ≤ v ∧ v < (L : Int)) := by
    unfold toU16
    omega
  cases t
  case NUM =>
    by_cases hr : L ≤ toU16 v
    · unfold verify_direct_addr
      rw [if_neg (by simp), if_pos hr]
      exact ⟨⟨fun h => absurd h (by simp), fun h => absurd h.2 (key.mp hr)⟩,
             fun hne => absurd rfl hne, fun _ _ => rfl⟩
    · unfold verify_direct_addr
      rw [if_neg (by simp), if_neg hr]
      refine ⟨⟨fun _ => ⟨rfl, ?_⟩, fun _ => rfl⟩,
              fun hne => absurd rfl hne, fun _ hv => absurd (key.mpr hv) hr⟩
      by_contra hv
      exact hr (key.mpr hv)
  all_goals
    unfold verify_direct_addr
    rw [if_pos (by simp)]
    exact ⟨⟨fun h => absurd h (by simp), fun h => absurd h.1 (by simp)⟩,
           fun _ => rfl, fun h => absurd h (by simp)⟩

/-- Witness for `verify_direct_addr_characterisation` at bank length 9:
Number 3 validates, Number 99 and Number -1 are out of range, and a
Character parameter has the wrong type. -/
theorem verify_direct_addr_characterisation_witness :
    verify_direct_addr ⟨NUM, 3⟩ 9 = ERR_NONE ∧
    verify_direct_addr ⟨NUM, 99⟩ 9 = ERR_DIRECT_ADDR_OUT_OF_RANGE ∧
    verify_direct_addr ⟨NUM, -1⟩ 9 = ERR_DIRECT_ADDR_OUT_OF_RANGE ∧
    verify_direct_addr ⟨CHAR, 3⟩ 9 = ERR_INVALID_TYPE_FOR_DIRECT_ADDR :=
  ⟨(verify_direct_addr_characterisation 9 ⟨NUM, 3⟩ (by decide) (by decide)
      (by decide)).1.mpr ⟨rfl, by decide, by decide⟩,
   (verify_direct_addr_characterisation 9 ⟨NUM, 99⟩ (by decide) (by decide)
      (by decide)).2.2 rfl (by decide),
   (verify_direct_addr_characterisation 9 ⟨NUM, -1⟩ (by decide) (by decide)
      (by decide)).2.2 rfl (by decide),
   (verify_direct_addr_characterisation 9 ⟨CHAR, 3⟩ (by decide) (by decide)
      (by decide)).2.1 (by decide)⟩

/-- Claim C5.  Two-stage indirect validation: a non-`NUM` outer parameter
fails with the indirect type code; a `NUM` outer parameter whose (uint16)
payload is out of the bank range fails with the indirect range code, and
this verdict is independent of the bank contents (the referenced cell is
never read — the result is the same for any two banks); only once the
outer address is valid is the referenced cell read and re-validated by
`verify_direct_addr`, whose two failure codes apply to the inner value. -/
theorem verify_indirect_addr_two_stage (p : HRMVal) (mem mem2 : List HRMVal)
    (L : Nat) :
    (p.type ≠ NUM →
      verify_indirect_addr p mem L = ERR_INVALID_TYPE_FOR_INDIRECT_ADDR) ∧
    (p.type = NUM → L ≤ toU16 p.n →
      verify_indirect_addr p mem L = ERR_INDIRECT_ADDR_OUT_OF_RANGE ∧
      verify_indirect_addr p mem L = verify_indirect_addr p mem2 L) ∧
    (p.type = NUM → toU16 p.n < L →
      verify_indirect_addr p mem L = verify_direct_addr (memGet mem p.n) L) := by
  refine ⟨?_, ?_, ?_⟩
  · intro ht
    unfold verify_indirect_addr
    rw [if_pos (fun h => ht h.symm)]
  · intro ht hr
    unfold verify_indirect_addr
    rw [if_neg (by simp [ht]), if_pos hr, if_neg (by simp [ht]), if_pos hr]
    exact ⟨rfl, rfl⟩
  · intro ht hr
    unfold verify_indirect_addr
    rw [if_neg (by simp [ht]), if_neg (by omega)]

/-- Witness for `verify_indirect_addr_two_stage`: the out-of-range outer
address 99 against a bank of length 9 fails with the outer range code and
the verdict is the same over the bank `[Number 1]` and the empty bank. -/
theorem verify_indirect_addr_two_stage_witness :
    verify_indirect_addr ⟨NUM, 99⟩ [⟨NUM, 1⟩] 9 =
      ERR_INDIRECT_ADDR_OUT_OF_RANGE ∧
    verify_indirect_addr ⟨NUM, 99⟩ [⟨NUM, 1⟩] 9 =
      verify_indirect_addr ⟨NUM, 99⟩ [] 9 :=
  (verify_indirect_addr_two_stage ⟨NUM, 99⟩ [⟨NUM, 1⟩] [] 9).2.1 rfl
    (by decide)

/-- Claim C7.  Executing INBOX with the input queue exhausted sets the
`inbox_empty` flag and leaves `err` at `ERR_NONE`: the loop guard then
fails, so the run halts normally, with the output queue (and the bank and
hands) exactly as produced so far, and the outcome `ERR_NONE` differs from
every error code. -/
theorem inbox_exhaustion_normal_halt (pgm : List HRMInstruction)
    (in_fifo : List HRMVal) (s : HRMState)
    (hf : (pgm.getD s.pgm_pc dfltInstr).inst = INBOX)
    (hex : in_fifo.length ≤ s.in_fifo_val_idx)
    (herr : s.err = ERR_NONE) :
    (step pgm in_fifo s).err = ERR_NONE ∧
    (step pgm in_fifo s).inbox_empty = true ∧
    (step pgm in_fifo s).out_fifo = s.out_fifo ∧
    (step pgm in_fifo s).mem = s.mem ∧
    (step pgm in_fifo s).hands = s.hands ∧
    loopCond pgm.length (step pgm in_fifo s) = false ∧
    (∀ e : HRMErr, e ≠ ERR_NONE → (step pgm in_fifo s).err ≠ e) := by
  unfold step
  rcases hI : pgm.getD s.pgm_pc dfltInstr with ⟨t, q⟩
  rw [hI] at hf
  replace hf : t = INBOX := hf
  subst hf
  have hs : stepInstr ⟨INBOX, q⟩ in_fifo s =
      { s with inbox_empty := true,
               pgm_num_instructions_executed :=
                 (s.pgm_num_instructions_executed + 1) % 65536 } := by
    simp only [stepInstr]
    rw [if_pos hex]
  rw [hs]
  refine ⟨herr, rfl, rfl, rfl, rfl, by simp [loopCond], fun e he h => ?_⟩
  exact he ((Eq.symm h).trans herr)

/-- Witness for `inbox_exhaustion_normal_halt`: a one-instruction INBOX
program with an empty input queue, the universally quantified final
conjunct instantiated at `ERR_EMPTY_HANDS`. -/
theorem inbox_exhaustion_normal_halt_witness :
    (step [⟨INBOX, emptyVal⟩] [] (initState [])).err = ERR_NONE ∧
    (step [⟨INBOX, emptyVal⟩] [] (initState [])).inbox_empty = true ∧
    (step [⟨INBOX, emptyVal⟩] [] (initState [])).out_fifo = [] ∧
    (step [⟨INBOX, emptyVal⟩] [] (initState [])).mem = [] ∧
    (step [⟨INBOX, emptyVal⟩] [] (initState [])).hands = emptyVal ∧
    loopCond 1 (step [⟨INBOX, emptyVal⟩] [] (initState [])) = false ∧
    (step [⟨INBOX, emptyVal⟩] [] (initState [])).err ≠ ERR_EMPTY_HANDS := by
  have h := inbox_exhaustion_normal_halt [⟨INBOX, emptyVal⟩] []
    (initState []) rfl (by decide) rfl
  exact ⟨h.1, h.2.1, h.2.2.1, h.2.2.2.1, h.2.2.2.2.1, h.2.2.2.2.2.1,
         h.2.2.2.2.2.2 ERR_EMPTY_HANDS (by decide)⟩

/-- Claim C8.  Conditional jumps: with a non-Number in hands the run halts
with the error the source assigns to a bad jump condition — the literal 1,
i.e. `ERR_BAD_PARAM_TYPE` (the enum has no separately named code for this
failure) — leaving the program counter in place and falsifying the loop
guard; with a Number in hands, the program counter is set to the resolved
0-based target (`param - 1`) when the condition (zero for JUMP_ZERO,
negative for JUMP_NEGATIVE) holds, and otherwise advances by one; no error
is raised in either Number case. -/
theorem conditional_jump_semantics (pgm : List HRMInstruction)
    (in_fifo : List HRMVal) (s : HRMState)
    (hop : (pgm.getD s.pgm_pc dfltInstr).inst = JUMP_ZERO ∨
           (pgm.getD s.pgm_pc dfltInstr).inst = JUMP_NEGATIVE)
    (hpc : s.pgm_pc < 65535) :
    (s.hands.type ≠ NUM →
      (step pgm in_fifo s).err = ERR_BAD_PARAM_TYPE ∧
      (step pgm in_fifo s).pgm_pc = s.pgm_pc ∧
      loopCond pgm.length (step pgm in_fifo s) = false) ∧
    ((pgm.getD s.pgm_pc dfltInstr).inst = JUMP_ZERO → s.hands.type = NUM →
      (step pgm in_fifo s).err = s.err ∧
      (s.hands.n = 0 → (step pgm in_fifo s).pgm_pc =
        toU16 ((pgm.getD s.pgm_pc dfltInstr).param.n - 1)) ∧
      (s.hands.n ≠ 0 → (step pgm in_fifo s).pgm_pc = s.pgm_pc + 1)) ∧
    ((pgm.getD s.pgm_pc dfltInstr).inst = JUMP_NEGATIVE → s.hands.type = NUM →
      (step pgm in_fifo s).err = s.err ∧
      (s.hands.n < 0 → (step pgm in_fifo s).pgm_pc =
        toU16 ((pgm.getD s.pgm_pc dfltInstr).param.n - 1)) ∧
      (0 ≤ s.hands.n → (step pgm in_fifo s).pgm_pc = s.pgm_pc + 1)) := by
  unfold step
  rcases hI : pgm.getD s.pgm_pc dfltInstr with ⟨t, q⟩
  rcases hop with h | h
  · rw [hI] at h
    replace h : t = JUMP_ZERO := h
    subst h
    refine ⟨?_, ?_, ?_⟩
    · intro ht
      have hs : stepInstr ⟨JUMP_ZERO, q⟩ in_fifo s =
          { s with err := ERR_BAD_PARAM_TYPE,
                   pgm_num_instructions_executed :=
                     (s.pgm_num_instructions_executed + 1) % 65536 } := by
        simp only [stepInstr]
        rw [if_pos (fun hh => ht hh.symm)]
      rw [hs]
      exact ⟨rfl, rfl, by simp [loopCond]⟩
    · intro _ hnum
      by_cases hz : s.hands.n = 0
      · have hs : stepInstr ⟨JUMP_ZERO, q⟩ in_fifo s =
            { s with pgm_pc := toU16 (q.n - 1),
                     pgm_num_instructions_executed :=
                       (s.pgm_num_instructions_executed + 1) % 65536 } := by
          simp only [stepInstr]
          rw [if_neg (by simp [hnum]), if_pos hz.symm]
        rw [hs]
        exact ⟨rfl, fun _ => rfl, fun hne => absurd hz hne⟩
      · have hs : stepInstr ⟨JUMP_ZERO, q⟩ in_fifo s =
            { s with pgm_pc := (s.pgm_pc + 1) % 65536,
                     pgm_num_instructions_executed :=
                       (s.pgm_num_instructions_executed + 1) % 65536 } := by
          simp only [stepInstr]
          rw [if_neg (by simp [hnum]), if_neg (fun hh => hz hh.symm)]
        rw [hs]
        refine ⟨rfl, fun hz2 => absurd hz2 hz, fun _ => ?_⟩
        show (s.pgm_pc + 1) % 65536 = s.pgm_pc + 1
        omega
    · intro hneg
      exact nomatch hneg
  · rw [hI] at h
    replace h : t = JUMP_NEGATIVE := h
    subst h
    refine ⟨?_, ?_, ?_⟩
    · intro ht
      have hs : stepInstr ⟨JUMP_NEGATIVE, q⟩ in_fifo s =
          { s with err := ERR_BAD_PARAM_TYPE,
                   pgm_num_instructions_executed :=
                     (s.pgm_num_instructions_executed + 1) % 65536 } := by
        simp only [stepInstr]
        rw [if_pos (fun hh => ht hh.symm)]
      rw [hs]
      exact ⟨rfl, rfl, by simp [loopCond]⟩
    · intro hzero
      exact nomatch hzero
    · intro _ hnum
      by_cases hlt : s.hands.n < 0
      · have hs : stepInstr ⟨JUMP_NEGATIVE, q⟩ in_fifo s =
            { s with pgm_pc := toU16 (q.n - 1),
                     pgm_num_instructions_executed :=
                       (s.pgm_num_instructions_executed + 1) % 65536 } := by
          simp only [stepInstr]
          rw [if_neg (by simp [hnum]), if_pos hlt]
        rw [hs]
        exact ⟨rfl, fun _ => rfl, fun hge => absurd hlt (not_lt.mpr hge)⟩
      · have hs : stepInstr ⟨JUMP_NEGATIVE, q⟩ in_fifo s =
            { s with pgm_pc := (s.pgm_pc + 1) % 65536,
                     pgm_num_instructions_executed :=
                       (s.pgm_num_instructions_executed + 1) % 65536 } := by
          simp only [stepInstr]
          rw [if_neg (by simp [hnum]), if_neg hlt]
        rw [hs]
        refine ⟨rfl, fun hlt2 => absurd hlt2 hlt, fun _ => ?_⟩
        show (s.pgm_pc + 1) % 65536 = s.pgm_pc + 1
        omega

/-- Witness for `conditional_jump_semantics`: JUMP_ZERO with a Character in
hands halts with `ERR_BAD_PARAM_TYPE` without moving the program
counter. -/
theorem conditional_jump_semantics_witness :
    (step [⟨JUMP_ZERO, ⟨PROG_ADDR, 1⟩⟩] []
        { initState [] with hands := ⟨CHAR, 65⟩ }).err = ERR_BAD_PARAM_TYPE ∧
    (step [⟨JUMP_ZERO, ⟨PROG_ADDR, 1⟩⟩] []
        { initState [] with hands := ⟨CHAR, 65⟩ }).pgm_pc = 0 ∧
    loopCond 1 (step [⟨JUMP_ZERO, ⟨PROG_ADDR, 1⟩⟩] []
        { initState [] with hands := ⟨CHAR, 65⟩ }) = false :=
  (conditional_jump_semantics [⟨JUMP_ZERO, ⟨PROG_ADDR, 1⟩⟩] []
    { initState [] with hands := ⟨CHAR, 65⟩ } (Or.inl rfl) (by decide)).1
    (by decide)

/-- Claim C9, counterexample.  The ADD case of the source mutates the
global `hands` (`hands.val.n += value.val.n`) before the range check, so a
step that halts with an arithmetic error leaves the mutated hands value
observable: with Number 4 in hands and Number 5 in cell 0, the step halts
with an error yet hands has become Number 9 — not the pre-instruction
Number 4 the claim requires. -/
theorem error_step_mutates_hands :
    ((step [⟨ADD, ⟨NUM, 0⟩⟩] []
        { initState [⟨NUM, 5⟩] with hands := ⟨NUM, 4⟩ }).err ≠ ERR_NONE) ∧
    (step [⟨ADD, ⟨NUM, 0⟩⟩] []
        { initState [⟨NUM, 5⟩] with hands := ⟨NUM, 4⟩ }).hands ≠ ⟨NUM, 4⟩ ∧
    (step [⟨ADD, ⟨NUM, 0⟩⟩] []
        { initState [⟨NUM, 5⟩] with hands := ⟨NUM, 4⟩ }).hands = ⟨NUM, 9⟩ := by
  decide

set_option maxHeartbeats 2000000

/-- Claim C9, amended.  A step that halts with an error leaves the memory
bank and the output queue exactly as they were, and leaves hands unchanged
as well — except for the ADD/ADD_IND/SUB/SUB_IND opcodes halting with
`ERR_OVERFLOW` or `ERR_UNDERFLOW`, which have already stored the computed
sum or difference into hands when the range check fires. -/
theorem error_step_frame (pgm : List HRMInstruction) (in_fifo : List HRMVal)
    (s : HRMState) (herr : s.err = ERR_NONE)
    (hfail : (step pgm in_fifo s).err ≠ ERR_NONE) :
    (step pgm in_fifo s).mem = s.mem ∧
    (step pgm in_fifo s).out_fifo = s.out_fifo ∧
    ((step pgm in_fifo s).hands = s.hands ∨
      (isAddSubOpcode (pgm.getD s.pgm_pc dfltInstr).inst = true ∧
        ((step pgm in_fifo s).err = ERR_OVERFLOW ∨
         (step pgm in_fifo s).err = ERR_UNDERFLOW))) := by
  unfold step at hfail ⊢
  rcases hI : pgm.getD s.pgm_pc dfltInstr with ⟨t, q⟩
  cases t <;>
    simp only [stepInstr] at hfail ⊢ <;>
    first
      | (split_ifs at hfail ⊢ <;> simp_all [isAddSubOpcode])
      | simp_all [isAddSubOpcode]

/-- Witness for `error_step_frame` at the concrete failing ADD input of the
counterexample (bank and output untouched; the hands exception is the
ADD/SUB one). -/
theorem error_step_frame_witness :
    (step [⟨ADD, ⟨NUM, 0⟩⟩] []
        { initState [⟨NUM, 5⟩] with hands := ⟨NUM, 4⟩ }).mem = [⟨NUM, 5⟩] ∧
    (step [⟨ADD, ⟨NUM, 0⟩⟩] []
        { initState [⟨NUM, 5⟩] with hands := ⟨NUM, 4⟩ }).out_fifo = [] ∧
    ((step [⟨ADD, ⟨NUM, 0⟩⟩] []
        { initState [⟨NUM, 5⟩] with hands := ⟨NUM, 4⟩ }).hands = ⟨NUM, 4⟩ ∨
      (isAddSubOpcode (([⟨ADD, ⟨NUM, 0⟩⟩] : List HRMInstruction).getD 0
          dfltInstr).inst = true ∧
        ((step [⟨ADD, ⟨NUM, 0⟩⟩] []
            { initState [⟨NUM, 5⟩] with hands := ⟨NUM, 4⟩ }).err =
          ERR_OVERFLOW ∨
         (step [⟨ADD, ⟨NUM, 0⟩⟩] []
            { initState [⟨NUM, 5⟩] with hands := ⟨NUM, 4⟩ }).err =
          ERR_UNDERFLOW))) :=
  error_step_frame [⟨ADD, ⟨NUM, 0⟩⟩] []
    { initState [⟨NUM, 5⟩] with hands := ⟨NUM, 4⟩ } rfl (by decide)

/-- Claim C10.  The opcodes that only read the bank — INBOX, COPYFROM(+ind),
ADD(+ind), SUB(+ind) — leave the memory bank and the output queue unchanged
on a successful step, and leave the input cursor unchanged for every opcode
of the group other than INBOX. -/
theorem read_only_opcodes_frame (pgm : List HRMInstruction)
    (in_fifo : List HRMVal) (s : HRMState)
    (hop : (pgm.getD s.pgm_pc dfltInstr).inst = INBOX ∨
           (pgm.getD s.pgm_pc dfltInstr).inst = COPYFROM ∨
           (pgm.getD s.pgm_pc dfltInstr).inst = COPYFROM_IND ∨
           (pgm.getD s.pgm_pc dfltInstr).inst = ADD ∨
           (pgm.getD s.pgm_pc dfltInstr).inst = ADD_IND ∨
           (pgm.getD s.pgm_pc dfltInstr).inst = SUB ∨
           (pgm.getD s.pgm_pc dfltInstr).inst = SUB_IND)
    (hsucc : (step pgm in_fifo s).err = ERR_NONE) :
    (step pgm in_fifo s).mem = s.mem ∧
    (step pgm in_fifo s).out_fifo = s.out_fifo ∧
    ((pgm.getD s.pgm_pc dfltInstr).inst ≠ INBOX →
      (step pgm in_fifo s).in_fifo_val_idx = s.in_fifo_val_idx) := by
  unfold step at hsucc ⊢
  rcases hI : pgm.getD s.pgm_pc dfltInstr with ⟨t, q⟩
  rcases hop with h | h | h | h | h | h | h <;>
    (rw [hI] at h; replace h : t = _ := h; subst h) <;>
    simp only [stepInstr] at hsucc ⊢ <;>
    split_ifs at hsucc ⊢ <;> simp_all

/-- Witness for `read_only_opcodes_frame`: a successful direct COPYFROM
leaves the bank, output and input cursor untouched. -/
theorem read_only_opcodes_frame_witness :
    (step [⟨COPYFROM, ⟨NUM, 0⟩⟩] [] (initState [⟨NUM, 5⟩])).mem =
      [⟨NUM, 5⟩] ∧
    (step [⟨COPYFROM, ⟨NUM, 0⟩⟩] [] (initState [⟨NUM, 5⟩])).out_fifo = [] ∧
    (step [⟨COPYFROM, ⟨NUM, 0⟩⟩] [] (initState [⟨NUM, 5⟩])).in_fifo_val_idx =
      0 :=
  ⟨(read_only_opcodes_frame [⟨COPYFROM, ⟨NUM, 0⟩⟩] [] (initState [⟨NUM, 5⟩])
      (by decide) (by decide)).1,
   (read_only_opcodes_frame [⟨COPYFROM, ⟨NUM, 0⟩⟩] [] (initState [⟨NUM, 5⟩])
      (by decide) (by decide)).2.1,
   (read_only_opcodes_frame [⟨COPYFROM, ⟨NUM, 0⟩⟩] [] (initState [⟨NUM, 5⟩])
      (by decide) (by decide)).2.2 (by decide)⟩

end TinyHRM
